import Mathlib

/-!
Shallow embedding of `src/validator.ts` (class `ConventionalCommitValidator`)
and the constant tables of `rules.js` from the pr-title-checker repository.

JavaScript strings are sequences of UTF-16 code units; we model a title as
`List Nat`, one element per code unit.  All string primitives used by the
source (`indexOf`, `substring`, `includes`, `startsWith`, `endsWith`,
`length`, `replace`, `trim`) and every regular expression it tests are
translated to executable functions on such lists, following ECMAScript
semantics for non-`u`-flagged regexes (which also operate on code units).
-/

namespace PrTitleChecker

/-- Code units of a Lean string literal (exact for the ASCII inputs used in
concrete test titles, where code point = UTF-16 code unit). -/
def jstr (s : String) : List Nat := s.data.map Char.toNat

/-- The error codes of `rules.js` (`ERROR_CODES`). -/
inductive ErrorCode where
  | INVALID_FORMAT
  | INVALID_TYPE
  | TYPE_NOT_LOWERCASE
  | EMPTY_SCOPE
  | INVALID_SCOPE_FORMAT
  | SCOPE_NOT_LOWERCASE
  | INVALID_BREAKING_CHANGE_POSITION
  | MISSING_DESCRIPTION
  | DESCRIPTION_TOO_LONG
  | DESCRIPTION_NOT_LOWERCASE
  | DESCRIPTION_ENDS_WITH_PERIOD
  | DESCRIPTION_HAS_LEADING_SPACE
  | DESCRIPTION_HAS_TRAILING_SPACE
  | MISSING_SPACE_AFTER_COLON
  | MULTIPLE_SPACES_AFTER_COLON
  | NON_ASCII_CHARACTERS
  | NON_IMPERATIVE_MOOD
deriving DecidableEq

open ErrorCode

/-- `ALLOWED_TYPES` of `rules.js`. -/
def ALLOWED_TYPES : List (List Nat) :=
  [jstr "feat", jstr "fix", jstr "docs", jstr "style", jstr "refactor",
   jstr "perf", jstr "test", jstr "build", jstr "ci", jstr "chore", jstr "revert"]

/-- `MAX_DESCRIPTION_LENGTH` of `rules.js`. -/
def MAX_DESCRIPTION_LENGTH : Nat := 50

/-- `ERROR_MESSAGES` of `rules.js` (the template interpolations are constant
and written out literally). -/
def errorMessage : ErrorCode → String
  | INVALID_FORMAT => "Title format is incorrect. Expected format: <type>[optional scope][optional !]: <description>"
  | INVALID_TYPE => "Type must be one of: feat, fix, docs, style, refactor, perf, test, build, ci, chore, revert"
  | TYPE_NOT_LOWERCASE => "Type must be lowercase"
  | EMPTY_SCOPE => "Scope cannot be empty. Either provide a scope or omit the parentheses"
  | INVALID_SCOPE_FORMAT => "Scope format is incorrect. Scope should only contain lowercase letters, numbers, hyphens, and underscores"
  | SCOPE_NOT_LOWERCASE => "Scope must be lowercase (strict mode)"
  | INVALID_BREAKING_CHANGE_POSITION => "Breaking change marker (!) must be placed after the scope (or type if no scope) and before the colon"
  | MISSING_DESCRIPTION => "Description is required after the colon and space"
  | DESCRIPTION_TOO_LONG => "Description must not exceed 50 characters"
  | DESCRIPTION_NOT_LOWERCASE => "Description must start with a lowercase letter (strict mode)"
  | DESCRIPTION_ENDS_WITH_PERIOD => "Description must not end with a period (strict mode)"
  | DESCRIPTION_HAS_LEADING_SPACE => "Description must not start with a space"
  | DESCRIPTION_HAS_TRAILING_SPACE => "Description must not end with a space"
  | MISSING_SPACE_AFTER_COLON => "There must be exactly one space after the colon"
  | MULTIPLE_SPACES_AFTER_COLON => "There must be exactly one space after the colon, not multiple spaces"
  | NON_ASCII_CHARACTERS => "Title must only contain displayable ASCII characters (range: 32-126)"
  | NON_IMPERATIVE_MOOD => "Description should use imperative mood (e.g., \"add\" not \"added\" or \"adds\")"

/-- `ERROR_EXAMPLES` of `rules.js`. -/
def errorExample : ErrorCode → String
  | INVALID_FORMAT => "feat(auth): add user login"
  | INVALID_TYPE => "feat: add new feature"
  | TYPE_NOT_LOWERCASE => "feat: add new feature"
  | EMPTY_SCOPE => "feat(auth): add user login"
  | INVALID_SCOPE_FORMAT => "feat(user-auth): add login"
  | SCOPE_NOT_LOWERCASE => "feat(auth): add user login"
  | INVALID_BREAKING_CHANGE_POSITION => "feat(api)!: breaking change"
  | MISSING_DESCRIPTION => "feat: add new feature"
  | DESCRIPTION_TOO_LONG => "feat: add user authentication"
  | DESCRIPTION_NOT_LOWERCASE => "feat: add user authentication"
  | DESCRIPTION_ENDS_WITH_PERIOD => "feat: add user authentication"
  | DESCRIPTION_HAS_LEADING_SPACE => "feat: add user authentication"
  | DESCRIPTION_HAS_TRAILING_SPACE => "feat: add user authentication"
  | MISSING_SPACE_AFTER_COLON => "feat: add new feature"
  | MULTIPLE_SPACES_AFTER_COLON => "feat: add new feature"
  | NON_ASCII_CHARACTERS => "feat: add user authentication"
  | NON_IMPERATIVE_MOOD => "feat: add feature (not \"added\" or \"adds\")"

/-- `ValidationError` of `types.ts` (the `example` field is renamed
`exampleText` because `example` is a Lean keyword). -/
structure ValidationError where
  code : ErrorCode
  message : String
  exampleText : String
deriving DecidableEq

/-- `createError` of `validator.ts`. -/
def createError (c : ErrorCode) : ValidationError :=
  { code := c, message := errorMessage c, exampleText := errorExample c }

/-- `TitleComponents` of `types.ts` (`scope?: string` becomes an `Option`). -/
structure TitleComponents where
  type : List Nat
  scope : Option (List Nat)
  isBreakingChange : Bool
  description : List Nat
deriving DecidableEq

/-- `ValidationResult` of `types.ts`. -/
structure ValidationResult where
  isValid : Bool
  errors : List ValidationError
deriving DecidableEq

/-- `ValidatorOptions` of `types.ts`, with the constructor defaults
(`strict ?? true`, `maxDescriptionLength ?? MAX_DESCRIPTION_LENGTH`)
already applied, as the constructor does. -/
structure ValidatorOptions where
  strict : Bool
  maxDescriptionLength : Nat
deriving DecidableEq

/-- The options produced by `new ConventionalCommitValidator()`. -/
def defaultOptions : ValidatorOptions := ⟨true, MAX_DESCRIPTION_LENGTH⟩

/-- Membership in the regex class `[^\x20-\x7E]` (`PATTERNS.nonAscii`). -/
def nonAsciiChar (u : Nat) : Bool := decide (u < 32) || decide (126 < u)

/-- Membership in `[a-zA-Z]`. -/
def isAsciiLetter (u : Nat) : Bool :=
  (decide (65 ≤ u) && decide (u ≤ 90)) || (decide (97 ≤ u) && decide (u ≤ 122))

/-- Membership in `[A-Z]` (`PATTERNS.uppercase`). -/
def isUpperAscii (u : Nat) : Bool := decide (65 ≤ u) && decide (u ≤ 90)

/-- Membership in the strict scope class `[a-z0-9_-]`. -/
def isScopeCharStrict (u : Nat) : Bool :=
  (decide (97 ≤ u) && decide (u ≤ 122)) || (decide (48 ≤ u) && decide (u ≤ 57)) ||
    u == 95 || u == 45

/-- Membership in the lenient scope class `[a-zA-Z0-9_-]`. -/
def isScopeCharLenient (u : Nat) : Bool :=
  (decide (97 ≤ u) && decide (u ≤ 122)) || (decide (65 ≤ u) && decide (u ≤ 90)) ||
    (decide (48 ≤ u) && decide (u ≤ 57)) || u == 95 || u == 45

/-- A test of an anchored character-class regex `^[...]+$` against a whole
string: nonempty and every unit in the class. -/
def anchoredPlus (p : Nat → Bool) (s : List Nat) : Bool := !s.isEmpty && s.all p

/-- Membership in the ECMAScript `\s` class (code units
`\t \n \v \f \r`, space, NBSP, U+1680, U+2000-U+200A, U+2028, U+2029,
U+202F, U+205F, U+3000, U+FEFF). -/
def jsWs (u : Nat) : Bool :=
  u == 9 || u == 10 || u == 11 || u == 12 || u == 13 || u == 32 ||
    u == 160 || u == 5760 || (decide (8192 ≤ u) && decide (u ≤ 8202)) ||
    u == 8232 || u == 8233 || u == 8239 || u == 8287 || u == 12288 || u == 65279

/-- `String.prototype.trim` (strips the same class as `\s`). -/
def jsTrim (l : List Nat) : List Nat :=
  ((l.dropWhile jsWs).reverse.dropWhile jsWs).reverse

/-- `String.prototype.toLowerCase`, restricted to its ASCII mapping
(`A-Z` to `a-z`).  In the validator it is applied only to strings compared
against all-ASCII words none of which contains the letter `k`, so the
Unicode special mappings (the only ones reaching ASCII output, e.g.
U+212A to `k`) cannot affect any comparison made here. -/
def jsToLowerCase (l : List Nat) : List Nat :=
  l.map (fun u => if 65 ≤ u ∧ u ≤ 90 then u + 32 else u)

/-- `String.prototype.indexOf` for a single code unit, `none` for JS `-1`. -/
def idxOf? (u : Nat) : List Nat → Option Nat
  | [] => none
  | v :: rest => if v = u then some 0 else (idxOf? u rest).map (· + 1)

/-- `String.prototype.indexOf` with the JS `-1` convention. -/
def jsIndexOf (u : Nat) (l : List Nat) : Int :=
  match idxOf? u l with
  | none => -1
  | some i => i

/-- `String.prototype.includes` for a constant pattern. -/
def jsIncludes (pat : List Nat) : List Nat → Bool
  | [] => pat.isEmpty
  | u :: rest => List.isPrefixOf pat (u :: rest) || jsIncludes pat rest

/-- First match of the regex `\(([^)]*)\)` (`beforeColon.match(/\(([^)]*)\)/)`),
returning the capture group: the units between the first `(` and the first
`)` after it; `none` when the regex does not match anywhere (no `(`, or no
`)` after the first `(`, in which case no later start position can match
either, since any `)` after a later `(` also lies after the first). -/
def firstParenGroup : List Nat → Option (List Nat)
  | [] => none
  | u :: rest =>
    if u = 40 then
      if (rest.dropWhile (fun v => v != 41)).isEmpty then none
      else some (rest.takeWhile (fun v => v != 41))
    else firstParenGroup rest

/-- `scopeMatch[0]`, the full text of the matched scope group, from the
capture (`none` meaning no match contributes the empty string, as in
`type + (scopeMatch ? scopeMatch[0] : '')`). -/
def scopeFull : Option (List Nat) → List Nat
  | none => []
  | some cap => 40 :: cap ++ [41]

/-- Test of `/^[a-z]+(\([^)]*\))?!:/i` (`validBreakingPattern` in
`validateBreakingChange`): one or more ASCII letters (the `i` flag admits
both cases), an optional parenthesised group of non-`)` units, then `!:`.
Backtracking is vacuous here: the letter run is maximal since neither `(`
nor `!` is a letter, and `[^)]*` must stop at the first `)`. -/
def validBreakingPattern (title : List Nat) : Bool :=
  let letters := title.takeWhile isAsciiLetter
  if letters.isEmpty then false
  else
    match title.dropWhile isAsciiLetter with
    | 40 :: r2 =>
      (match r2.dropWhile (fun v => v != 41) with
       | 41 :: 33 :: 58 :: _ => true
       | _ => false)
    | 33 :: 58 :: _ => true
    | _ => false

/-- Test of `/:\s{2,}/` on a suffix head: the next two units are `\s`. -/
def twoWsAhead : List Nat → Bool
  | w1 :: w2 :: _ => jsWs w1 && jsWs w2
  | _ => false

/-- Test of `/:\s{2,}/.test(title)`: some `:` is followed by at least two
`\s` units. -/
def hasColonMultiWs : List Nat → Bool
  | [] => false
  | u :: rest => ((u == 58) && twoWsAhead rest) || hasColonMultiWs rest

/-- `description.startsWith(' ')` guarded strip:
`cleanDescription = description.substring(1)` when it starts with a space. -/
def stripOneLeadingSpace : List Nat → List Nat
  | 32 :: rest => rest
  | l => l

/-- `cleanDescription.startsWith(' ')`. -/
def startsWithSpace : List Nat → Bool
  | 32 :: _ => true
  | _ => false

/-- `cleanDescription.endsWith(' ')`. -/
def endsWithSpace (l : List Nat) : Bool := l.getLast? == some 32

/-- Test of `PATTERNS.descriptionStartsLowercase` (`/^[a-z]/`). -/
def startsWithLowerAscii : List Nat → Bool
  | u :: _ => decide (97 ≤ u) && decide (u ≤ 122)
  | [] => false

/-- Test of `PATTERNS.endsWithPeriod` (`/\.$/`). -/
def endsWithPeriod (l : List Nat) : Bool := l.getLast? == some 46

/-- The fifteen alternatives of the `nonImperativePatterns` regex. -/
def nonImperativeWords : List (List Nat) :=
  [jstr "added", jstr "adds", jstr "adding", jstr "updated", jstr "updates",
   jstr "updating", jstr "fixed", jstr "fixes", jstr "fixing", jstr "removed",
   jstr "removes", jstr "removing", jstr "deleted", jstr "deletes", jstr "deleting"]

/-- `parseTitle` of `validator.ts`. -/
def parseTitle (title : List Nat) : Option TitleComponents :=
  let ty := title.takeWhile isAsciiLetter
  if ty.isEmpty then none
  else
    match idxOf? 58 title with
    | none => none
    | some colonIndex =>
      let beforeColon := title.take colonIndex
      let scopeCapture := firstParenGroup beforeColon
      let isBreakingChange := beforeColon.contains 33
      let withoutExclamation := beforeColon.filter (fun u => u != 33)
      if withoutExclamation = ty ++ scopeFull scopeCapture then
        some { type := ty, scope := scopeCapture, isBreakingChange := isBreakingChange,
               description := title.drop (colonIndex + 1) }
      else none

/-- `validateType` of `validator.ts`. -/
def validateType (ty : List Nat) : List ValidationError :=
  (if ty.any isUpperAscii then [createError TYPE_NOT_LOWERCASE] else []) ++
    (if !(ALLOWED_TYPES.contains (jsToLowerCase ty)) then [createError INVALID_TYPE] else [])

/-- `validateScope` of `validator.ts` (the `title` argument is unused in the
source as well). -/
def validateScope (cfg : ValidatorOptions) (_title : List Nat)
    (scope : Option (List Nat)) : List ValidationError :=
  match scope with
  | none => []
  | some s =>
    if s.length = 0 then [createError EMPTY_SCOPE]
    else
      (if cfg.strict && s.any isUpperAscii then [createError SCOPE_NOT_LOWERCASE] else []) ++
        (if cfg.strict then
          (if !(anchoredPlus isScopeCharStrict s) then [createError INVALID_SCOPE_FORMAT] else [])
        else
          (if !(anchoredPlus isScopeCharLenient s) then [createError INVALID_SCOPE_FORMAT] else []))

/-- `validateBreakingChange` of `validator.ts`. -/
def validateBreakingChange (title : List Nat) (isBreakingChange : Bool) :
    List ValidationError :=
  let colonIndex := jsIndexOf 58 title
  let exclamationIndex := jsIndexOf 33 title
  if isBreakingChange then
    if exclamationIndex = -1 ∨ exclamationIndex ≥ colonIndex then
      [createError INVALID_BREAKING_CHANGE_POSITION]
    else if !(validBreakingPattern title) then
      [createError INVALID_BREAKING_CHANGE_POSITION]
    else []
  else
    if exclamationIndex ≠ -1 ∧ exclamationIndex > colonIndex then
      [createError INVALID_BREAKING_CHANGE_POSITION]
    else []

/-- The `DESCRIPTION_TOO_LONG` error that `validateDescription` constructs
inline, with the configured limit interpolated into the message. -/
def tooLongError (len : Nat) : ValidationError :=
  { code := DESCRIPTION_TOO_LONG,
    message := "Description must not exceed " ++ toString len ++ " characters",
    exampleText := errorExample DESCRIPTION_TOO_LONG }

/-- `validateDescription` of `validator.ts`. -/
def validateDescription (cfg : ValidatorOptions) (title description : List Nat) :
    List ValidationError :=
  let errs1 := if !(jsIncludes (jstr ": ") title) then [createError MISSING_SPACE_AFTER_COLON] else []
  let errs2 := if hasColonMultiWs title then [createError MULTIPLE_SPACES_AFTER_COLON] else []
  let cleanDescription := stripOneLeadingSpace description
  if cleanDescription.isEmpty || (jsTrim cleanDescription).isEmpty then
    errs1 ++ errs2 ++ [createError MISSING_DESCRIPTION]
  else
    errs1 ++ errs2 ++
      (if startsWithSpace cleanDescription then [createError DESCRIPTION_HAS_LEADING_SPACE] else []) ++
      (if endsWithSpace cleanDescription then [createError DESCRIPTION_HAS_TRAILING_SPACE] else []) ++
      (if cleanDescription.length > cfg.maxDescriptionLength then [tooLongError cfg.maxDescriptionLength] else []) ++
      (if cfg.strict then
        let trimmedDescription := jsTrim cleanDescription
        (if trimmedDescription.length > 0 && !(startsWithLowerAscii trimmedDescription) then
          [createError DESCRIPTION_NOT_LOWERCASE] else []) ++
          (if endsWithPeriod trimmedDescription then [createError DESCRIPTION_ENDS_WITH_PERIOD] else []) ++
          (if nonImperativeWords.contains
              (jsToLowerCase (trimmedDescription.takeWhile (fun u => u != 32))) then
            [createError NON_IMPERATIVE_MOOD] else [])
      else [])

/-- The `NON_ASCII_CHARACTERS` accumulation at the top of `validate`. -/
def nonAsciiErrs (title : List Nat) : List ValidationError :=
  if title.any nonAsciiChar then [createError NON_ASCII_CHARACTERS] else []

/-- `validate` of `validator.ts`. -/
def validate (cfg : ValidatorOptions) (title : List Nat) : ValidationResult :=
  match parseTitle title with
  | none => { isValid := false, errors := nonAsciiErrs title ++ [createError INVALID_FORMAT] }
  | some components =>
    let errs := nonAsciiErrs title ++ validateType components.type ++
      validateScope cfg title components.scope ++
      validateBreakingChange title components.isBreakingChange ++
      validateDescription cfg title components.description
    { isValid := errs.isEmpty, errors := errs }

/-- The error-code multiset of a result (the claims speak of codes). -/
def resultCodes (r : ValidationResult) : List ErrorCode :=
  r.errors.map ValidationError.code

/-- Every element of a list satisfies the code bound. -/
def codesAmong (S : List ErrorCode) (l : List ValidationError) : Prop :=
  ∀ e ∈ l, e.code ∈ S

/-- The nine codes `validateDescription` can produce. -/
def descCodes : List ErrorCode :=
  [MISSING_SPACE_AFTER_COLON, MULTIPLE_SPACES_AFTER_COLON, MISSING_DESCRIPTION,
   DESCRIPTION_HAS_LEADING_SPACE, DESCRIPTION_HAS_TRAILING_SPACE, DESCRIPTION_TOO_LONG,
   DESCRIPTION_NOT_LOWERCASE, DESCRIPTION_ENDS_WITH_PERIOD, NON_IMPERATIVE_MOOD]

theorem codesAmong_nil {S : List ErrorCode} : codesAmong S [] := by
  intro e he; simp at he

theorem codesAmong_singleton {S : List ErrorCode} {x : ValidationError}
    (h : x.code ∈ S) : codesAmong S [x] := by
  intro e he; simp at he; subst he; exact h

theorem codesAmong_append {S : List ErrorCode} {l1 l2 : List ValidationError}
    (h1 : codesAmong S l1) (h2 : codesAmong S l2) : codesAmong S (l1 ++ l2) := by
  intro e he
  rcases List.mem_append.1 he with h | h
  · exact h1 e h
  · exact h2 e h

theorem codesAmong_ite {S : List ErrorCode} {p : Prop} [Decidable p]
    {l1 l2 : List ValidationError} (h1 : codesAmong S l1) (h2 : codesAmong S l2) :
    codesAmong S (if p then l1 else l2) := by
  split
  · exact h1
  · exact h2

theorem mem_ite_singleton {p : Prop} [Decidable p] {e c : ValidationError} :
    (c ∈ if p then [e] else ([] : List ValidationError)) ↔ p ∧ c = e := by
  split
  · simp_all
  · simp_all

theorem mem_resultCodes {c : ErrorCode} {r : ValidationResult} :
    c ∈ resultCodes r ↔ ∃ e ∈ r.errors, e.code = c := by
  simp [resultCodes]

theorem codesAmong_nonAsciiErrs {t : List Nat} :
    codesAmong [NON_ASCII_CHARACTERS] (nonAsciiErrs t) := by
  unfold nonAsciiErrs
  exact codesAmong_ite (codesAmong_singleton (by decide)) codesAmong_nil

theorem codesAmong_validateType {ty : List Nat} :
    codesAmong [TYPE_NOT_LOWERCASE, INVALID_TYPE] (validateType ty) := by
  unfold validateType
  exact codesAmong_append (codesAmong_ite (codesAmong_singleton (by decide)) codesAmong_nil)
    (codesAmong_ite (codesAmong_singleton (by decide)) codesAmong_nil)

theorem codesAmong_validateScope {cfg : ValidatorOptions} {t : List Nat}
    {sc : Option (List Nat)} :
    codesAmong [EMPTY_SCOPE, SCOPE_NOT_LOWERCASE, INVALID_SCOPE_FORMAT]
      (validateScope cfg t sc) := by
  unfold validateScope
  rcases sc with _ | s
  · exact codesAmong_nil
  · refine codesAmong_ite (codesAmong_singleton (by decide)) ?_
    refine codesAmong_append (codesAmong_ite (codesAmong_singleton (by decide)) codesAmong_nil) ?_
    refine codesAmong_ite ?_ ?_ <;>
      exact codesAmong_ite (codesAmong_singleton (by decide)) codesAmong_nil

theorem codesAmong_validateBreakingChange {t : List Nat} {b : Bool} :
    codesAmong [INVALID_BREAKING_CHANGE_POSITION] (validateBreakingChange t b) := by
  unfold validateBreakingChange
  refine codesAmong_ite ?_ ?_
  · refine codesAmong_ite (codesAmong_singleton (by decide)) ?_
    exact codesAmong_ite (codesAmong_singleton (by decide)) codesAmong_nil
  · exact codesAmong_ite (codesAmong_singleton (by decide)) codesAmong_nil

theorem codesAmong_validateDescription {cfg : ValidatorOptions} {t d : List Nat} :
    codesAmong descCodes (validateDescription cfg t d) := by
  unfold validateDescription
  repeat
    first
    | exact codesAmong_nil
    | exact codesAmong_singleton (by first | decide | simp [tooLongError, descCodes])
    | apply codesAmong_append
    | apply codesAmong_ite

theorem validate_of_parse_none (cfg : ValidatorOptions) {t : List Nat}
    (h : parseTitle t = none) :
    validate cfg t = ⟨false, nonAsciiErrs t ++ [createError INVALID_FORMAT]⟩ := by
  unfold validate
  rw [h]

theorem validate_errors_of_parse {cfg : ValidatorOptions} {t : List Nat}
    {comps : TitleComponents} (h : parseTitle t = some comps) :
    (validate cfg t).errors =
      nonAsciiErrs t ++ validateType comps.type ++ validateScope cfg t comps.scope ++
        validateBreakingChange t comps.isBreakingChange ++
        validateDescription cfg t comps.description := by
  unfold validate
  rw [h]

theorem idxOf?_lt_of_mem_take {u : Nat} {l : List Nat} {n : Nat}
    (h : u ∈ l.take n) : ∃ i, idxOf? u l = some i ∧ i < n := by
  induction l generalizing n with
  | nil => simp at h
  | cons v rest ih =>
    cases n with
    | zero => simp at h
    | succ m =>
      rw [List.take_succ_cons, List.mem_cons] at h
      by_cases hv : v = u
      · exact ⟨0, by simp [idxOf?, hv], Nat.succ_pos m⟩
      · rcases h with h | h
        · exact absurd h.symm hv
        · rcases ih h with ⟨i, hi, hlt⟩
          exact ⟨i + 1, by simp [idxOf?, hv, hi], Nat.succ_lt_succ hlt⟩

theorem parseTitle_some_elim {t : List Nat} {comps : TitleComponents}
    (h : parseTitle t = some comps) :
    ∃ j, idxOf? 58 t = some j ∧
      comps.isBreakingChange = (t.take j).contains 33 ∧
      comps.scope = firstParenGroup (t.take j) ∧
      comps.description = t.drop (j + 1) ∧
      comps.type = t.takeWhile isAsciiLetter := by
  simp only [parseTitle] at h
  split at h
  · exact absurd h (by simp)
  · split at h
    · exact absurd h (by simp)
    · rename_i j hj
      split at h
      · cases h
        exact ⟨j, hj, rfl, rfl, rfl, rfl⟩
      · exact absurd h (by simp)

theorem breaking_indices {t : List Nat} {comps : TitleComponents}
    (hp : parseTitle t = some comps) (hb : comps.isBreakingChange = true) :
    ∃ i j : Nat, idxOf? 33 t = some i ∧ idxOf? 58 t = some j ∧ i < j := by
  rcases parseTitle_some_elim hp with ⟨j, hj, hbr, -, -, -⟩
  rw [hb] at hbr
  have hmem : (33 : Nat) ∈ t.take j := by
    have := hbr.symm
    simpa [List.contains] using this
  rcases idxOf?_lt_of_mem_take hmem with ⟨i, hi, hlt⟩
  exact ⟨i, j, hi, hj, hlt⟩

theorem validateBreakingChange_eq_pattern {t : List Nat} {comps : TitleComponents}
    (hp : parseTitle t = some comps) (hb : comps.isBreakingChange = true) :
    validateBreakingChange t comps.isBreakingChange =
      (if validBreakingPattern t then [] else
        [createError INVALID_BREAKING_CHANGE_POSITION]) := by
  rcases breaking_indices hp hb with ⟨i, j, hi, hj, hlt⟩
  rw [hb]
  unfold validateBreakingChange
  rw [if_pos rfl]
  have hexc : jsIndexOf 33 t = (i : Int) := by simp [jsIndexOf, hi]
  have hcol : jsIndexOf 58 t = (j : Int) := by simp [jsIndexOf, hj]
  rw [if_neg]
  · by_cases hvp : validBreakingPattern t <;> simp [hvp]
  · rw [hexc, hcol]
    push_neg
    constructor
    · omega
    · exact_mod_cast hlt

theorem validateBreakingChange_true_of_pattern_false {t : List Nat}
    (h : validBreakingPattern t = false) :
    validateBreakingChange t true =
      [createError INVALID_BREAKING_CHANGE_POSITION] := by
  unfold validateBreakingChange
  rw [if_pos rfl]
  split
  · rfl
  · rw [if_pos (by simp [h])]

theorem isEmpty_false_of_ne_nil {α : Type} {l : List α} (h : l ≠ []) :
    l.isEmpty = false := by
  cases l
  · exact absurd rfl h
  · rfl

theorem anchoredPlus_mono {s : List Nat}
    (h : anchoredPlus isScopeCharStrict s = true) :
    anchoredPlus isScopeCharLenient s = true := by
  simp only [anchoredPlus, Bool.and_eq_true, List.all_eq_true] at h ⊢
  refine ⟨h.1, fun u hu => ?_⟩
  have hs := h.2 u hu
  simp only [isScopeCharStrict, isScopeCharLenient, Bool.or_eq_true, Bool.and_eq_true,
    decide_eq_true_eq, beq_iff_eq] at hs ⊢
  omega

theorem mem_validateScope_lenient_strict {len : Nat} {t : List Nat}
    {sc : Option (List Nat)} {e : ValidationError}
    (h : e ∈ validateScope ⟨false, len⟩ t sc) : e ∈ validateScope ⟨true, len⟩ t sc := by
  rcases sc with _ | s
  · simp [validateScope] at h
  · by_cases h0 : s.length = 0
    · simpa [validateScope, h0] using h
    · by_cases hL : anchoredPlus isScopeCharLenient s = true
      · simp [validateScope, h0, hL] at h
      · rw [Bool.not_eq_true] at hL
        have hS : anchoredPlus isScopeCharStrict s = false := by
          cases hstrict : anchoredPlus isScopeCharStrict s
          · rfl
          · exact absurd (anchoredPlus_mono hstrict) (by simp [hL])
        simp [validateScope, h0, hL] at h
        simp [validateScope, h0, hS, h, List.mem_append]

theorem mem_validateScope_strict_cases {len : Nat} {t : List Nat}
    {sc : Option (List Nat)} {e : ValidationError}
    (h : e ∈ validateScope ⟨true, len⟩ t sc) :
    e ∈ validateScope ⟨false, len⟩ t sc ∨
      e.code = SCOPE_NOT_LOWERCASE ∨ e.code = INVALID_SCOPE_FORMAT := by
  rcases sc with _ | s
  · simp [validateScope] at h
  · by_cases h0 : s.length = 0
    · left
      simpa [validateScope, h0] using h
    · simp only [validateScope, h0, if_false, List.mem_append, mem_ite_singleton] at h
      rcases h with ⟨-, rfl⟩ | h
      · exact Or.inr (Or.inl rfl)
      · rcases (mem_ite_singleton).1 (by simpa using h) with ⟨-, rfl⟩
        exact Or.inr (Or.inr rfl)

theorem mem_validateDescription_lenient_strict {len : Nat} {t d : List Nat}
    {e : ValidationError} (h : e ∈ validateDescription ⟨false, len⟩ t d) :
    e ∈ validateDescription ⟨true, len⟩ t d := by
  simp only [validateDescription] at h ⊢
  split at h <;> rename_i hc
  · rw [if_pos hc]
    exact h
  · rw [if_neg hc]
    rw [List.mem_append] at h ⊢
    rcases h with h | h
    · exact Or.inl h
    · exfalso
      simp at h

theorem mem_validateDescription_strict_cases {len : Nat} {t d : List Nat}
    {e : ValidationError} (h : e ∈ validateDescription ⟨true, len⟩ t d) :
    e ∈ validateDescription ⟨false, len⟩ t d ∨
      e.code = DESCRIPTION_NOT_LOWERCASE ∨ e.code = DESCRIPTION_ENDS_WITH_PERIOD ∨
        e.code = NON_IMPERATIVE_MOOD := by
  simp only [validateDescription] at h ⊢
  split at h <;> rename_i hc
  · left
    rw [if_pos hc]
    exact h
  · rw [List.mem_append] at h
    rcases h with h | h
    · left
      rw [if_neg hc, List.mem_append]
      exact Or.inl h
    · right
      have h' : e ∈ (if (0 < (jsTrim (stripOneLeadingSpace d)).length ∧
            ¬startsWithLowerAscii (jsTrim (stripOneLeadingSpace d)) = true) then
              [createError DESCRIPTION_NOT_LOWERCASE] else []) ++
            ((if endsWithPeriod (jsTrim (stripOneLeadingSpace d)) = true then
              [createError DESCRIPTION_ENDS_WITH_PERIOD] else []) ++
            (if nonImperativeWords.contains
                (jsToLowerCase ((jsTrim (stripOneLeadingSpace d)).takeWhile
                  (fun u => u != 32))) = true then
              [createError NON_IMPERATIVE_MOOD] else [])) := by
        simpa using h
      simp only [List.mem_append, mem_ite_singleton] at h'
      rcases h' with ⟨-, rfl⟩ | ⟨-, rfl⟩ | ⟨-, rfl⟩
      · exact Or.inl rfl
      · exact Or.inr (Or.inl rfl)
      · exact Or.inr (Or.inr rfl)

theorem mem_code_validate_some {cfg : ValidatorOptions} {t : List Nat}
    {comps : TitleComponents} {c : ErrorCode} (hp : parseTitle t = some comps) :
    c ∈ resultCodes (validate cfg t) ↔
      ((∃ e ∈ nonAsciiErrs t, e.code = c) ∨
       (∃ e ∈ validateType comps.type, e.code = c) ∨
       (∃ e ∈ validateScope cfg t comps.scope, e.code = c) ∨
       (∃ e ∈ validateBreakingChange t comps.isBreakingChange, e.code = c) ∨
       (∃ e ∈ validateDescription cfg t comps.description, e.code = c)) := by
  rw [mem_resultCodes, validate_errors_of_parse hp]
  constructor
  · rintro ⟨e, he, rfl⟩
    simp only [List.mem_append] at he
    rcases he with ((((he | he) | he) | he) | he)
    · exact Or.inl ⟨e, he, rfl⟩
    · exact Or.inr (Or.inl ⟨e, he, rfl⟩)
    · exact Or.inr (Or.inr (Or.inl ⟨e, he, rfl⟩))
    · exact Or.inr (Or.inr (Or.inr (Or.inl ⟨e, he, rfl⟩)))
    · exact Or.inr (Or.inr (Or.inr (Or.inr ⟨e, he, rfl⟩)))
  · intro h
    rcases h with ⟨e, he, rfl⟩ | ⟨e, he, rfl⟩ | ⟨e, he, rfl⟩ | ⟨e, he, rfl⟩ | ⟨e, he, rfl⟩ <;>
      exact ⟨e, by simp only [List.mem_append]; tauto, rfl⟩

theorem validateScope_empty {cfg : ValidatorOptions} {t : List Nat} :
    validateScope cfg t (some []) = [createError EMPTY_SCOPE] := by
  simp [validateScope]

theorem any_nonAscii_iff {t : List Nat} :
    t.any nonAsciiChar = true ↔ ∃ u ∈ t, u < 32 ∨ 126 < u := by
  simp [List.any_eq_true, nonAsciiChar]

theorem hasColonMultiWs_iff {t : List Nat} :
    hasColonMultiWs t = true ↔
      ∃ pre w1 w2 post, jsWs w1 = true ∧ jsWs w2 = true ∧
        t = pre ++ 58 :: w1 :: w2 :: post := by
  induction t with
  | nil =>
    constructor
    · intro h
      simp [hasColonMultiWs] at h
    · rintro ⟨pre, w1, w2, post, -, -, h⟩
      cases pre <;> simp at h
  | cons u rest ih =>
    constructor
    · intro h
      have h' : (u = 58 ∧ twoWsAhead rest = true) ∨ hasColonMultiWs rest = true := by
        simpa [hasColonMultiWs] using h
      rcases h' with ⟨hu, h2⟩ | h
      · rcases rest with _ | ⟨w1, rest'⟩
        · simp [twoWsAhead] at h2
        rcases rest' with _ | ⟨w2, r⟩
        · simp [twoWsAhead] at h2
        obtain ⟨hw1, hw2⟩ : jsWs w1 = true ∧ jsWs w2 = true := by
          simpa [twoWsAhead] using h2
        exact ⟨[], w1, w2, r, hw1, hw2, by simp [hu]⟩
      · rcases ih.mp h with ⟨pre, w1, w2, post, hw1, hw2, heq⟩
        exact ⟨u :: pre, w1, w2, post, hw1, hw2, by simp [heq]⟩
    · rintro ⟨pre, w1, w2, post, hw1, hw2, heq⟩
      rcases pre with _ | ⟨p, pre'⟩
      · obtain ⟨rfl, rfl⟩ : u = 58 ∧ rest = w1 :: w2 :: post := by simpa using heq
        simp [hasColonMultiWs, twoWsAhead, hw1, hw2]
      · obtain ⟨rfl, hr⟩ : u = p ∧ rest = pre' ++ 58 :: w1 :: w2 :: post := by
          simpa using heq
        have := ih.mpr ⟨pre', w1, w2, post, hw1, hw2, hr⟩
        simp [hasColonMultiWs, this]

theorem mult_of_hasColonMultiWs {cfg : ValidatorOptions} {t d : List Nat}
    (h : hasColonMultiWs t = true) :
    createError MULTIPLE_SPACES_AFTER_COLON ∈ validateDescription cfg t d := by
  simp only [validateDescription]
  split <;> simp [List.mem_append, h]

theorem codesAmong_validateDescription_noMult {cfg : ValidatorOptions} {t d : List Nat}
    (hn : hasColonMultiWs t = false) :
    codesAmong (descCodes.erase MULTIPLE_SPACES_AFTER_COLON)
      (validateDescription cfg t d) := by
  unfold validateDescription
  rw [hn]
  repeat
    first
    | exact codesAmong_nil
    | exact codesAmong_singleton (by first | decide | simp [tooLongError, descCodes])
    | apply codesAmong_append
    | apply codesAmong_ite

theorem hasColonMultiWs_of_mult {cfg : ValidatorOptions} {t d : List Nat}
    {e : ValidationError} (he : e ∈ validateDescription cfg t d)
    (hc : e.code = MULTIPLE_SPACES_AFTER_COLON) : hasColonMultiWs t = true := by
  by_contra hn
  rw [Bool.not_eq_true] at hn
  have := codesAmong_validateDescription_noMult hn e he
  rw [hc] at this
  exact absurd this (by decide)

theorem tooLong_of_gt {cfg : ValidatorOptions} {t d : List Nat}
    (hne : stripOneLeadingSpace d ≠ []) (htr : jsTrim (stripOneLeadingSpace d) ≠ [])
    (h : cfg.maxDescriptionLength < (stripOneLeadingSpace d).length) :
    tooLongError cfg.maxDescriptionLength ∈ validateDescription cfg t d := by
  have h1 := isEmpty_false_of_ne_nil hne
  have h2 := isEmpty_false_of_ne_nil htr
  simp [validateDescription, h1, h2, h, List.mem_append]

theorem codesAmong_validateDescription_noTooLong {cfg : ValidatorOptions} {t d : List Nat}
    (hn : ¬ cfg.maxDescriptionLength < (stripOneLeadingSpace d).length) :
    codesAmong (descCodes.erase DESCRIPTION_TOO_LONG) (validateDescription cfg t d) := by
  simp only [validateDescription]
  rw [if_neg hn]
  repeat
    first
    | exact codesAmong_nil
    | exact codesAmong_singleton (by decide)
    | apply codesAmong_append
    | apply codesAmong_ite

/-- C3: under the default configuration (strict, max length 50), the four
titles `feat: add user authentication`, `fix(api): handle timeout errors`,
`feat(api)!: breaking change in api` and `revert: undo breaking change`
validate with `isValid = true` and an empty error list. -/
theorem claim3_round_trip :
    validate defaultOptions (jstr "feat: add user authentication") = ⟨true, []⟩ ∧
    validate defaultOptions (jstr "fix(api): handle timeout errors") = ⟨true, []⟩ ∧
    validate defaultOptions (jstr "feat(api)!: breaking change in api") = ⟨true, []⟩ ∧
    validate defaultOptions (jstr "revert: undo breaking change") = ⟨true, []⟩ :=
  ⟨by decide, by decide, by decide, by decide⟩

/-- C7: for `Feature: add something` under the default configuration the
error list contains both `TYPE_NOT_LOWERCASE` (the type has an uppercase
letter) and `INVALID_TYPE` (lower-cased "feature" is not an allowed type),
showing the two type errors fire independently on the same title. -/
theorem claim7_both_type_errors :
    TYPE_NOT_LOWERCASE ∈ resultCodes (validate defaultOptions (jstr "Feature: add something")) ∧
    INVALID_TYPE ∈ resultCodes (validate defaultOptions (jstr "Feature: add something")) := by
  decide

/-- C5: whenever the structural parse fails, `validate` returns
`isValid = false` with error list exactly
`[NON_ASCII_CHARACTERS, INVALID_FORMAT]` when the title has a code unit
outside `[0x20, 0x7E]`, and exactly `[INVALID_FORMAT]` otherwise. -/
theorem claim5_parse_failure (cfg : ValidatorOptions) (t : List Nat)
    (h : parseTitle t = none) :
    (validate cfg t).isValid = false ∧
    ((∃ u ∈ t, u < 32 ∨ 126 < u) →
      resultCodes (validate cfg t) = [NON_ASCII_CHARACTERS, INVALID_FORMAT]) ∧
    ((∀ u ∈ t, 32 ≤ u ∧ u ≤ 126) →
      resultCodes (validate cfg t) = [INVALID_FORMAT]) := by
  rw [validate_of_parse_none cfg h]
  refine ⟨rfl, ?_, ?_⟩
  · intro hex
    have ha : t.any nonAsciiChar = true := any_nonAscii_iff.mpr hex
    simp [resultCodes, nonAsciiErrs, ha, createError]
  · intro hall
    have ha : t.any nonAsciiChar = false := by
      rw [← Bool.not_eq_true]
      intro hx
      rcases any_nonAscii_iff.mp hx with ⟨u, hu, hlt⟩
      rcases hall u hu with ⟨hl1, hl2⟩
      omega
    simp [resultCodes, nonAsciiErrs, ha, createError]

/-- C5 witness: `feat : add something` fails the parse (space before the
colon) and yields `INVALID_FORMAT` as its only error. -/
theorem claim5_witness :
    resultCodes (validate defaultOptions (jstr "feat : add something")) = [INVALID_FORMAT] ∧
    (validate defaultOptions (jstr "feat : add something")).isValid = false := by
  have h := claim5_parse_failure defaultOptions (jstr "feat : add something") (by decide)
  exact ⟨h.2.2 (by decide), h.1⟩

/-- C9: when the parse succeeds with `isBreakingChange = true`, the first
`!` in the title sits strictly before the first `:` (so the
`exclamationIndex === -1 || exclamationIndex >= colonIndex` guard of
`validateBreakingChange` cannot fire), and the breaking-change result is
decided entirely by the positional-pattern test. -/
theorem claim9_guard_unreachable (t : List Nat) (comps : TitleComponents)
    (hp : parseTitle t = some comps) (hb : comps.isBreakingChange = true) :
    (jsIndexOf 33 t ≠ -1 ∧ jsIndexOf 33 t < jsIndexOf 58 t) ∧
    validateBreakingChange t comps.isBreakingChange =
      (if validBreakingPattern t then [] else
        [createError INVALID_BREAKING_CHANGE_POSITION]) := by
  rcases breaking_indices hp hb with ⟨i, j, hi, hj, hlt⟩
  have hexc : jsIndexOf 33 t = (i : Int) := by simp [jsIndexOf, hi]
  have hcol : jsIndexOf 58 t = (j : Int) := by simp [jsIndexOf, hj]
  refine ⟨⟨by rw [hexc]; omega, by rw [hexc, hcol]; exact_mod_cast hlt⟩,
    validateBreakingChange_eq_pattern hp hb⟩

/-- C9 witness: the title `feat!: go` parses as breaking; its first `!`
precedes its first `:` and the guard branch is skipped. -/
theorem claim9_witness :
    (jsIndexOf 33 (jstr "feat!: go") ≠ -1 ∧
      jsIndexOf 33 (jstr "feat!: go") < jsIndexOf 58 (jstr "feat!: go")) ∧
    validateBreakingChange (jstr "feat!: go") true =
      (if validBreakingPattern (jstr "feat!: go") then [] else
        [createError INVALID_BREAKING_CHANGE_POSITION]) :=
  claim9_guard_unreachable (jstr "feat!: go")
    ⟨jstr "feat", none, true, jstr " go"⟩ (by decide) rfl

/-- C1 counterexample: in `fe!at: add x` a `!` appears before the first
colon (index 2 vs 5) in a non-valid placement (embedded in the type), yet
`validate` does not record `INVALID_BREAKING_CHANGE_POSITION`: the title
fails the structural parse and gets `INVALID_FORMAT` instead. -/
theorem claim1_counterexample :
    jsIndexOf 33 (jstr "fe!at: add x") ≠ -1 ∧
    jsIndexOf 33 (jstr "fe!at: add x") < jsIndexOf 58 (jstr "fe!at: add x") ∧
    validBreakingPattern (jstr "fe!at: add x") = false ∧
    resultCodes (validate defaultOptions (jstr "fe!at: add x")) = [INVALID_FORMAT] ∧
    INVALID_BREAKING_CHANGE_POSITION ∉
      resultCodes (validate defaultOptions (jstr "fe!at: add x")) := by
  decide

/-- C1 (amended): a misplaced pre-colon `!` yields
`INVALID_BREAKING_CHANGE_POSITION` only on titles that still parse
structurally (e.g. `feat!(api): add something`); when the misplacement
breaks the parse itself (e.g. `!` embedded in the type, `fe!at:`), the
title gets `INVALID_FORMAT` and never `INVALID_BREAKING_CHANGE_POSITION`. -/
theorem claim1_amended (cfg : ValidatorOptions) (t : List Nat) :
    (∀ comps, parseTitle t = some comps → comps.isBreakingChange = true →
      validBreakingPattern t = false →
      INVALID_BREAKING_CHANGE_POSITION ∈ resultCodes (validate cfg t)) ∧
    (parseTitle t = none →
      INVALID_BREAKING_CHANGE_POSITION ∉ resultCodes (validate cfg t)) := by
  constructor
  · intro comps hp hb hvp
    rw [mem_code_validate_some hp]
    refine Or.inr (Or.inr (Or.inr (Or.inl
      ⟨createError INVALID_BREAKING_CHANGE_POSITION, ?_, rfl⟩)))
    rw [hb, validateBreakingChange_true_of_pattern_false hvp]
    simp
  · intro hp
    rw [validate_of_parse_none cfg hp, mem_resultCodes]
    rintro ⟨e, he, hc⟩
    rcases List.mem_append.1 he with he | he
    · have hm := codesAmong_nonAsciiErrs e he
      rw [hc] at hm
      exact absurd hm (by decide)
    · have he' : e = createError INVALID_FORMAT := by simpa using he
      rw [he'] at hc
      exact absurd hc (by decide)

/-- C1 witness: `feat!(api): add something` (the `!` before the scope
group) parses and records `INVALID_BREAKING_CHANGE_POSITION`. -/
theorem claim1_witness :
    INVALID_BREAKING_CHANGE_POSITION ∈
      resultCodes (validate defaultOptions (jstr "feat!(api): add something")) :=
  (claim1_amended defaultOptions (jstr "feat!(api): add something")).1
    ⟨jstr "feat", some (jstr "api"), true, jstr " add something"⟩
    (by decide) rfl (by decide)

/-- C2 counterexample: `feat: a b:  c` parses structurally, its header
colon (index 4) is followed by a single space, yet
`MULTIPLE_SPACES_AFTER_COLON` is recorded, because the later colon is
followed by two spaces — refuting the claimed "if and only if" about the
header colon. -/
theorem claim2_counterexample :
    (parseTitle (jstr "feat: a b:  c")).isSome = true ∧
    idxOf? 58 (jstr "feat: a b:  c") = some 4 ∧
    List.take 2 (List.drop 5 (jstr "feat: a b:  c")) ≠ [32, 32] ∧
    MULTIPLE_SPACES_AFTER_COLON ∈
      resultCodes (validate defaultOptions (jstr "feat: a b:  c")) := by
  decide

/-- C2 (amended): for every title that parses structurally,
`MULTIPLE_SPACES_AFTER_COLON` is recorded iff somewhere in the title some
colon — not only the header colon — is followed by two or more ECMAScript
whitespace units (not only spaces). -/
theorem claim2_amended (cfg : ValidatorOptions) (t : List Nat)
    (hp : (parseTitle t).isSome = true) :
    MULTIPLE_SPACES_AFTER_COLON ∈ resultCodes (validate cfg t) ↔
      ∃ pre w1 w2 post, jsWs w1 = true ∧ jsWs w2 = true ∧
        t = pre ++ 58 :: w1 :: w2 :: post := by
  rw [← hasColonMultiWs_iff]
  obtain ⟨comps, hc⟩ := Option.isSome_iff_exists.mp hp
  rw [mem_code_validate_some hc]
  constructor
  · rintro (⟨e, he, hcode⟩ | ⟨e, he, hcode⟩ | ⟨e, he, hcode⟩ | ⟨e, he, hcode⟩ | ⟨e, he, hcode⟩)
    · have hm := codesAmong_nonAsciiErrs e he
      rw [hcode] at hm
      exact absurd hm (by decide)
    · have hm := codesAmong_validateType e he
      rw [hcode] at hm
      exact absurd hm (by decide)
    · have hm := codesAmong_validateScope e he
      rw [hcode] at hm
      exact absurd hm (by decide)
    · have hm := codesAmong_validateBreakingChange e he
      rw [hcode] at hm
      exact absurd hm (by decide)
    · exact hasColonMultiWs_of_mult he hcode
  · intro h
    exact Or.inr (Or.inr (Or.inr (Or.inr
      ⟨createError MULTIPLE_SPACES_AFTER_COLON, mult_of_hasColonMultiWs h, rfl⟩)))

/-- C2 witness: `feat:  a` (header colon followed by two spaces) records
`MULTIPLE_SPACES_AFTER_COLON`. -/
theorem claim2_witness :
    MULTIPLE_SPACES_AFTER_COLON ∈
      resultCodes (validate defaultOptions (jstr "feat:  a")) :=
  (claim2_amended defaultOptions (jstr "feat:  a") (by decide)).mpr
    ⟨jstr "feat", 32, 32, jstr "a", by decide, by decide, by decide⟩

/-- C10: when a title parses with the `!` in the valid pre-colon position,
later `!` characters in the description never trigger
`INVALID_BREAKING_CHANGE_POSITION`: `feat!: drop the old api!` is fully
valid under the default configuration, while the same description `!`
without a pre-colon marker is an error. -/
theorem claim10_description_bang :
    (∀ (cfg : ValidatorOptions) (t : List Nat) (comps : TitleComponents),
      parseTitle t = some comps → comps.isBreakingChange = true →
      validBreakingPattern t = true →
      INVALID_BREAKING_CHANGE_POSITION ∉ resultCodes (validate cfg t)) ∧
    validate defaultOptions (jstr "feat!: drop the old api!") = ⟨true, []⟩ ∧
    INVALID_BREAKING_CHANGE_POSITION ∈
      resultCodes (validate defaultOptions (jstr "feat: drop the old api!")) := by
  refine ⟨?_, by decide, by decide⟩
  intro cfg t comps hp hb hvp hmem
  rw [mem_code_validate_some hp] at hmem
  rcases hmem with ⟨e, he, hcode⟩ | ⟨e, he, hcode⟩ | ⟨e, he, hcode⟩ |
    ⟨e, he, hcode⟩ | ⟨e, he, hcode⟩
  · have hm := codesAmong_nonAsciiErrs e he
    rw [hcode] at hm
    exact absurd hm (by decide)
  · have hm := codesAmong_validateType e he
    rw [hcode] at hm
    exact absurd hm (by decide)
  · have hm := codesAmong_validateScope e he
    rw [hcode] at hm
    exact absurd hm (by decide)
  · rw [validateBreakingChange_eq_pattern hp hb, hvp] at he
    simp at he
  · have hm := codesAmong_validateDescription e he
    rw [hcode] at hm
    exact absurd hm (by decide)

/-- C10 witness: the general part applied to `feat!: drop the old api!`. -/
theorem claim10_witness :
    INVALID_BREAKING_CHANGE_POSITION ∉
      resultCodes (validate defaultOptions (jstr "feat!: drop the old api!")) :=
  claim10_description_bang.1 defaultOptions (jstr "feat!: drop the old api!")
    ⟨jstr "feat", none, true, jstr " drop the old api!"⟩ (by decide) rfl (by decide)

/-- C6: for every title that parses and whose description, after stripping
exactly one leading space, is nonempty and not entirely whitespace, a
description of exactly `maxDescriptionLength` code units never records
`DESCRIPTION_TOO_LONG`, and one of exactly `maxDescriptionLength + 1`
always does (length measured before any further trimming). -/
theorem claim6_length_boundary (cfg : ValidatorOptions) (t : List Nat)
    (comps : TitleComponents) (hp : parseTitle t = some comps)
    (hne : stripOneLeadingSpace comps.description ≠ [])
    (htr : jsTrim (stripOneLeadingSpace comps.description) ≠ []) :
    ((stripOneLeadingSpace comps.description).length = cfg.maxDescriptionLength →
      DESCRIPTION_TOO_LONG ∉ resultCodes (validate cfg t)) ∧
    ((stripOneLeadingSpace comps.description).length = cfg.maxDescriptionLength + 1 →
      DESCRIPTION_TOO_LONG ∈ resultCodes (validate cfg t)) := by
  constructor
  · intro hlen hmem
    rw [mem_code_validate_some hp] at hmem
    rcases hmem with ⟨e, he, hcode⟩ | ⟨e, he, hcode⟩ | ⟨e, he, hcode⟩ |
      ⟨e, he, hcode⟩ | ⟨e, he, hcode⟩
    · have hm := codesAmong_nonAsciiErrs e he
      rw [hcode] at hm
      exact absurd hm (by decide)
    · have hm := codesAmong_validateType e he
      rw [hcode] at hm
      exact absurd hm (by decide)
    · have hm := codesAmong_validateScope e he
      rw [hcode] at hm
      exact absurd hm (by decide)
    · have hm := codesAmong_validateBreakingChange e he
      rw [hcode] at hm
      exact absurd hm (by decide)
    · have hn : ¬ cfg.maxDescriptionLength < (stripOneLeadingSpace comps.description).length := by
        omega
      have hm := codesAmong_validateDescription_noTooLong hn e he
      rw [hcode] at hm
      exact absurd hm (by decide)
  · intro hlen
    rw [mem_code_validate_some hp]
    refine Or.inr (Or.inr (Or.inr (Or.inr
      ⟨tooLongError cfg.maxDescriptionLength, ?_, rfl⟩)))
    exact tooLong_of_gt hne htr (by omega)

/-- C6 witness: a 50-unit description is not too long at limit 50 and is
too long at limit 49. -/
theorem claim6_witness :
    DESCRIPTION_TOO_LONG ∉ resultCodes (validate ⟨true, 50⟩
      (jstr "feat: aaaaaaaaaaaaaaaaaaaaaaaaaaaaaaaaaaaaaaaaaaaaaaaaaa")) ∧
    DESCRIPTION_TOO_LONG ∈ resultCodes (validate ⟨true, 49⟩
      (jstr "feat: aaaaaaaaaaaaaaaaaaaaaaaaaaaaaaaaaaaaaaaaaaaaaaaaaa")) := by
  constructor
  · exact (claim6_length_boundary ⟨true, 50⟩
      (jstr "feat: aaaaaaaaaaaaaaaaaaaaaaaaaaaaaaaaaaaaaaaaaaaaaaaaaa")
      ⟨jstr "feat", none, false, jstr " aaaaaaaaaaaaaaaaaaaaaaaaaaaaaaaaaaaaaaaaaaaaaaaaaa"⟩
      (by decide) (by decide) (by decide)).1 (by decide)
  · exact (claim6_length_boundary ⟨true, 49⟩
      (jstr "feat: aaaaaaaaaaaaaaaaaaaaaaaaaaaaaaaaaaaaaaaaaaaaaaaaaa")
      ⟨jstr "feat", none, false, jstr " aaaaaaaaaaaaaaaaaaaaaaaaaaaaaaaaaaaaaaaaaaaaaaaaaa"⟩
      (by decide) (by decide) (by decide)).2 (by decide)

/-- C8: a title parsing with an empty captured scope records `EMPTY_SCOPE`
and records neither `SCOPE_NOT_LOWERCASE` nor `INVALID_SCOPE_FORMAT`, in
strict and lenient mode alike (the configuration is arbitrary here). -/
theorem claim8_empty_scope (cfg : ValidatorOptions) (t : List Nat)
    (comps : TitleComponents) (hp : parseTitle t = some comps)
    (hsc : comps.scope = some []) :
    EMPTY_SCOPE ∈ resultCodes (validate cfg t) ∧
    SCOPE_NOT_LOWERCASE ∉ resultCodes (validate cfg t) ∧
    INVALID_SCOPE_FORMAT ∉ resultCodes (validate cfg t) := by
  have hs : validateScope cfg t comps.scope = [createError EMPTY_SCOPE] := by
    rw [hsc]
    exact validateScope_empty
  refine ⟨?_, ?_, ?_⟩
  · rw [mem_code_validate_some hp]
    exact Or.inr (Or.inr (Or.inl ⟨createError EMPTY_SCOPE, by rw [hs]; simp, rfl⟩))
  · intro hmem
    rw [mem_code_validate_some hp] at hmem
    rcases hmem with ⟨e, he, hcode⟩ | ⟨e, he, hcode⟩ | ⟨e, he, hcode⟩ |
      ⟨e, he, hcode⟩ | ⟨e, he, hcode⟩
    · have hm := codesAmong_nonAsciiErrs e he
      rw [hcode] at hm
      exact absurd hm (by decide)
    · have hm := codesAmong_validateType e he
      rw [hcode] at hm
      exact absurd hm (by decide)
    · rw [hs] at he
      have he' : e = createError EMPTY_SCOPE := by simpa using he
      rw [he'] at hcode
      exact absurd hcode (by decide)
    · have hm := codesAmong_validateBreakingChange e he
      rw [hcode] at hm
      exact absurd hm (by decide)
    · have hm := codesAmong_validateDescription e he
      rw [hcode] at hm
      exact absurd hm (by decide)
  · intro hmem
    rw [mem_code_validate_some hp] at hmem
    rcases hmem with ⟨e, he, hcode⟩ | ⟨e, he, hcode⟩ | ⟨e, he, hcode⟩ |
      ⟨e, he, hcode⟩ | ⟨e, he, hcode⟩
    · have hm := codesAmong_nonAsciiErrs e he
      rw [hcode] at hm
      exact absurd hm (by decide)
    · have hm := codesAmong_validateType e he
      rw [hcode] at hm
      exact absurd hm (by decide)
    · rw [hs] at he
      have he' : e = createError EMPTY_SCOPE := by simpa using he
      rw [he'] at hcode
      exact absurd hcode (by decide)
    · have hm := codesAmong_validateBreakingChange e he
      rw [hcode] at hm
      exact absurd hm (by decide)
    · have hm := codesAmong_validateDescription e he
      rw [hcode] at hm
      exact absurd hm (by decide)

/-- C8 witness: `feat(): add something` parses with an empty scope and gets
`EMPTY_SCOPE` but not the other two scope errors. -/
theorem claim8_witness :
    EMPTY_SCOPE ∈ resultCodes (validate defaultOptions (jstr "feat(): add something")) ∧
    SCOPE_NOT_LOWERCASE ∉ resultCodes (validate defaultOptions (jstr "feat(): add something")) ∧
    INVALID_SCOPE_FORMAT ∉ resultCodes (validate defaultOptions (jstr "feat(): add something")) :=
  claim8_empty_scope defaultOptions (jstr "feat(): add something")
    ⟨jstr "feat", some [], false, jstr " add something"⟩ (by decide) rfl

/-- C4: for every title and fixed maximum length, the lenient
(`strict = false`) error-code set is a subset of the strict one, and every
code the strict run adds is one of `DESCRIPTION_NOT_LOWERCASE`,
`DESCRIPTION_ENDS_WITH_PERIOD`, `NON_IMPERATIVE_MOOD`,
`SCOPE_NOT_LOWERCASE` or `INVALID_SCOPE_FORMAT` (the last via the loosened
lenient scope charset). -/
theorem claim4_strict_lenient (len : Nat) (t : List Nat) (c : ErrorCode) :
    (c ∈ resultCodes (validate ⟨false, len⟩ t) →
      c ∈ resultCodes (validate ⟨true, len⟩ t)) ∧
    (c ∈ resultCodes (validate ⟨true, len⟩ t) →
      c ∉ resultCodes (validate ⟨false, len⟩ t) →
      c = DESCRIPTION_NOT_LOWERCASE ∨ c = DESCRIPTION_ENDS_WITH_PERIOD ∨
        c = NON_IMPERATIVE_MOOD ∨ c = SCOPE_NOT_LOWERCASE ∨
        c = INVALID_SCOPE_FORMAT) := by
  cases hp : parseTitle t with
  | none =>
    rw [validate_of_parse_none ⟨false, len⟩ hp, validate_of_parse_none ⟨true, len⟩ hp]
    exact ⟨fun h => h, fun h h2 => absurd h h2⟩
  | some comps =>
    constructor
    · intro h
      rw [mem_code_validate_some hp] at h ⊢
      rcases h with h | h | ⟨e, he, hcode⟩ | h | ⟨e, he, hcode⟩
      · exact Or.inl h
      · exact Or.inr (Or.inl h)
      · exact Or.inr (Or.inr (Or.inl ⟨e, mem_validateScope_lenient_strict he, hcode⟩))
      · exact Or.inr (Or.inr (Or.inr (Or.inl h)))
      · exact Or.inr (Or.inr (Or.inr (Or.inr
          ⟨e, mem_validateDescription_lenient_strict he, hcode⟩)))
    · intro h hnot
      rw [mem_code_validate_some hp] at h
      rcases h with h | h | ⟨e, he, hcode⟩ | h | ⟨e, he, hcode⟩
      · exact absurd ((mem_code_validate_some hp).mpr (Or.inl h)) hnot
      · exact absurd ((mem_code_validate_some hp).mpr (Or.inr (Or.inl h))) hnot
      · rcases mem_validateScope_strict_cases he with he' | hc | hc
        · exact absurd ((mem_code_validate_some hp).mpr
            (Or.inr (Or.inr (Or.inl ⟨e, he', hcode⟩)))) hnot
        · exact Or.inr (Or.inr (Or.inr (Or.inl (by rw [← hcode]; exact hc))))
        · exact Or.inr (Or.inr (Or.inr (Or.inr (by rw [← hcode]; exact hc))))
      · exact absurd ((mem_code_validate_some hp).mpr
          (Or.inr (Or.inr (Or.inr (Or.inl h))))) hnot
      · rcases mem_validateDescription_strict_cases he with he' | hc | hc | hc
        · exact absurd ((mem_code_validate_some hp).mpr
            (Or.inr (Or.inr (Or.inr (Or.inr ⟨e, he', hcode⟩))))) hnot
        · exact Or.inl (by rw [← hcode]; exact hc)
        · exact Or.inr (Or.inl (by rw [← hcode]; exact hc))
        · exact Or.inr (Or.inr (Or.inl (by rw [← hcode]; exact hc)))

/-- C4 witness: the subset direction applied to a lenient error of
`Banana: add x`. -/
theorem claim4_witness :
    INVALID_TYPE ∈ resultCodes (validate ⟨true, 50⟩ (jstr "Banana: add x")) :=
  (claim4_strict_lenient 50 (jstr "Banana: add x") INVALID_TYPE).1 (by decide)

end PrTitleChecker
